import Mathlib

/-!
Verification of the PDF text-layer augmentation scripts
(`augment_coco_json_with_pdf_text_layer.py`, dialect A, and
`augment_labelme_json_with_pdf_text_layer.py`, dialect B).

The scripts are embedded shallowly:
* strings are lists of characters (`Str`),
* JSON numbers that take part in coordinate arithmetic are rationals,
* a PDF page is its point-space size together with an abstract clipped
  text query that may fail (`Except Unit Str`), mirroring
  `page.get_text("text", clip=rect)` which may raise,
* a PDF document is the list of its pages; `pyIndex` models the
  Python-style indexing `pdf_doc[page_num]` of PyMuPDF (`load_page`),
  which wraps one negative step (`doc[-1]` is the last page) and raises
  beyond that,
* fallible steps return `Except Unit`; a raised exception is `.error ()`.

Characters are treated as ASCII: `str.isdigit`, `re.IGNORECASE` and the
regex class `\d` are modelled on their ASCII fragment, which covers every
input the claims mention.
-/

abbrev Str := List Char

/-- Python `str.strip()`: drop leading and trailing whitespace. -/
def strip (s : Str) : Str :=
  ((s.dropWhile Char.isWhitespace).reverse.dropWhile Char.isWhitespace).reverse

/-- Python `int(...)` on a nonempty string of decimal digits. -/
def natOfDigits (ds : Str) : Nat :=
  ds.foldl (fun n c => 10 * n + (c.toNat - 48)) 0

/-- Index of the last occurrence of `c` in `s`, as used by `rfind`. -/
def lastIdxOf (c : Char) (s : Str) : Option Nat :=
  (s.foldl (fun acc ch => (if ch = c then some acc.2 else acc.1, acc.2 + 1))
    ((none : Option Nat), 0)).1

/-- Python `os.path.basename` on a POSIX path: the part after the last slash. -/
def pathBasename (s : Str) : Str :=
  match lastIdxOf '/' s with
  | none => s
  | some i => s.drop (i + 1)

/-- The stem part of Python `os.path.splitext`: cut at the last dot,
unless every character before that dot is itself a dot (so `.bashrc`
keeps its name), as in CPython `genericpath._splitext`. -/
def splitextStem (s : Str) : Str :=
  match lastIdxOf '.' s with
  | none => s
  | some i => if (s.take i).any (fun ch => ch ≠ '.') then s.take i else s

/-- Lower-casing of a filename, modelling `str.lower` / `re.IGNORECASE`
on the ASCII fragment. -/
def lowerStr (s : Str) : Str := s.map Char.toLower

/-- A rectangle in PDF point space, `fitz.Rect(x0, y0, x1, y1)`. -/
structure Rect where
  x0 : ℚ
  y0 : ℚ
  x1 : ℚ
  y1 : ℚ
deriving DecidableEq

/-- A PDF page: its point-space size (`page.rect`) and the embedded
text-layer query `page.get_text("text", clip=rect)`, which may raise. -/
structure Page where
  width : ℚ
  height : ℚ
  getText : Rect → Except Unit Str

/-- A PDF document is its ordered list of pages (`pdf_doc.page_count
= length`). -/
abbrev Doc := List Page

/-- Model of `pdf_doc[page_num]` in PyMuPDF: one Python-style negative wrap,
out-of-range access raises (`none`). -/
def pyIndex (doc : Doc) (n : Int) : Option Page :=
  let m : Int := if n < 0 then n + doc.length else n
  if 0 ≤ m then doc[m.toNat]? else none

/-! ## Dialect A (COCO): `augment_coco_json_with_pdf_text_layer.py` -/

/-- One record of `coco_data["images"]`. -/
structure ImageRec where
  id : Int
  file_name : Str
deriving DecidableEq

/-- One record of `coco_data["annotations"]`; `bbox = [x, y, w, h]`.
`original_pdf_text_layer = none` models the field being absent. -/
structure Ann where
  id : Int
  image_id : Int
  bbox : ℚ × ℚ × ℚ × ℚ
  original_pdf_text_layer : Option Str := none
deriving DecidableEq

/-- The in-memory COCO structure (the fields the scripts read). -/
structure CocoData where
  images : List ImageRec
  annotations : List Ann
deriving DecidableEq

/-- Model of `get_page_number_from_image_id`: scan the image records for the id;
on the first match, keep every digit character of the base name of the
file name (`"".join(filter(str.isdigit, basename))`) and return that
number minus 1; with no digits, or no matching record, fall back to
`image_id - 1`. -/
def get_page_number_from_image_id (images : List ImageRec) (image_id : Int) : Int :=
  match images with
  | [] => image_id - 1
  | im :: rest =>
    if im.id = image_id then
      let basename := splitextStem (pathBasename im.file_name)
      let numbers := basename.filter Char.isDigit
      if numbers.isEmpty then image_id - 1
      else (natOfDigits numbers : Int) - 1
    else get_page_number_from_image_id rest image_id

/-- Model of `extract_text_from_bbox`: guard `page_num >= pdf_doc.page_count`
returns the empty string; otherwise index the document, build
`fitz.Rect(x, y, x + width, y + height)` and query the clipped text,
stripping whitespace. -/
def extract_text_from_bbox (doc : Doc) (page_num : Int) (bbox : ℚ × ℚ × ℚ × ℚ) :
    Except Unit Str :=
  if (doc.length : Int) ≤ page_num then .ok []
  else
    match pyIndex doc page_num with
    | none => .error ()
    | some page =>
      match page.getText ⟨bbox.1, bbox.2.1, bbox.1 + bbox.2.2.1, bbox.2.1 + bbox.2.2.2⟩ with
      | .error e => .error e
      | .ok t => .ok (strip t)

/-- The body of the annotation loop of `process_pdf_layout_pair` (COCO):
resolve the page, try the extraction, attach the result; a raised
exception is absorbed and the annotation is tagged with `""`. -/
def augmentAnn (doc : Doc) (images : List ImageRec) (a : Ann) : Ann :=
  match extract_text_from_bbox doc (get_page_number_from_image_id images a.image_id) a.bbox with
  | .ok t => { a with original_pdf_text_layer := some t }
  | .error _ => { a with original_pdf_text_layer := some [] }

/-- Whether the per-annotation extraction succeeds (drives `updated_count`). -/
def annOk (doc : Doc) (images : List ImageRec) (a : Ann) : Bool :=
  match extract_text_from_bbox doc (get_page_number_from_image_id images a.image_id) a.bbox with
  | .ok _ => true
  | .error _ => false

/-- The annotation-processing phase of `process_pdf_layout_pair` (COCO):
every annotation is visited in order and tagged in place; returns the
mutated structure and `updated_count`. -/
def processCoco (doc : Doc) (coco : CocoData) : CocoData × Nat :=
  ({ coco with annotations := coco.annotations.map (augmentAnn doc coco.images) },
   (coco.annotations.filter (annOk doc coco.images)).length)

/-! ## Dialect B (LabelMe): `augment_labelme_json_with_pdf_text_layer.py` -/

/-- One entry of `data["shapes"]`. -/
structure Shape where
  label : Str
  points : List (ℚ × ℚ)
  original_pdf_text_layer : Option Str := none
deriving DecidableEq

/-- One per-page LabelMe file; `imageWidth`/`imageHeight` default to 0
when the key is missing (`data.get('imageWidth', 0)`). -/
structure LabelMeData where
  imageWidth : ℚ
  imageHeight : ℚ
  shapes : List Shape
deriving DecidableEq

/-- The rectangle construction of `extract_text_from_labelme_bbox`:
normalize the two corners, scale by `pdf_rect.width / image_width` and
`pdf_rect.height / image_height`, same top-left origin on both axes. -/
def labelmeRect (pageW pageH : ℚ) (p1 p2 : ℚ × ℚ) (iw ih : ℚ) : Rect :=
  let img_x0 := min p1.1 p2.1
  let img_y0 := min p1.2 p2.2
  let img_x1 := max p1.1 p2.1
  let img_y1 := max p1.2 p2.2
  let scale_x := pageW / iw
  let scale_y := pageH / ih
  ⟨img_x0 * scale_x, img_y0 * scale_y, img_x1 * scale_x, img_y1 * scale_y⟩

/-- Model of `extract_text_from_labelme_bbox`: guard `page_num >= page_count`
returns the empty string; otherwise index the document, read the two
corner points, map them through `labelmeRect` and query the clipped
text, stripping whitespace. -/
def extract_text_from_labelme_bbox (doc : Doc) (page_num : Int)
    (points : List (ℚ × ℚ)) (iw ih : ℚ) : Except Unit Str :=
  if (doc.length : Int) ≤ page_num then .ok []
  else
    match pyIndex doc page_num with
    | none => .error ()
    | some page =>
      match points[0]?, points[1]? with
      | some p1, some p2 =>
        match page.getText (labelmeRect page.width page.height p1 p2 iw ih) with
        | .error e => .error e
        | .ok t => .ok (strip t)
      | _, _ => .error ()

/-- The body of the shape loop of `process_labelme_json`: shapes with at
least two points get the (fallible) extraction, absorbed to `""` on
failure; shapes with fewer points are tagged with `""` directly. -/
def augmentShape (doc : Doc) (page_num : Int) (iw ih : ℚ) (sh : Shape) : Shape :=
  if 2 ≤ sh.points.length then
    match extract_text_from_labelme_bbox doc page_num sh.points iw ih with
    | .ok t => { sh with original_pdf_text_layer := some t }
    | .error _ => { sh with original_pdf_text_layer := some [] }
  else { sh with original_pdf_text_layer := some [] }

/-- Whether a shape counts into `shapes_processed`. -/
def shapeOk (doc : Doc) (page_num : Int) (iw ih : ℚ) (sh : Shape) : Bool :=
  decide (2 ≤ sh.points.length) &&
    match extract_text_from_labelme_bbox doc page_num sh.points iw ih with
    | .ok _ => true
    | .error _ => false

/-- Model of `process_labelme_json`: with `imageWidth == 0 or imageHeight == 0`
the file is returned untouched with count 0; otherwise every shape is
tagged in place and the successful ones are counted. -/
def process_labelme_json (doc : Doc) (page_num : Int) (data : LabelMeData) :
    LabelMeData × Nat :=
  if data.imageWidth = 0 ∨ data.imageHeight = 0 then (data, 0)
  else
    ({ data with
        shapes := data.shapes.map (augmentShape doc page_num data.imageWidth data.imageHeight) },
     (data.shapes.filter (shapeOk doc page_num data.imageWidth data.imageHeight)).length)

/-! ## Dialect B page-file discovery and the per-pair page loop -/

/-- The effect of `re.match(r'page_(\d+)\.json', filename, re.IGNORECASE)`:
an anchored PREFIX match (not a full match). Returns the captured number
when the lower-cased name starts with `page_`, then one or more digits,
then `.json` — possibly followed by anything. -/
def pageNumOfName (s : Str) : Option Nat :=
  let t := lowerStr s
  if "page_".toList.isPrefixOf t then
    let rest := t.drop 5
    let ds := rest.takeWhile Char.isDigit
    if ds.isEmpty then none
    else if ".json".toList.isPrefixOf (rest.drop ds.length) then some (natOfDigits ds)
    else none
  else none

/-- Key comparison used when sorting collected `(page_number, filename)`
pairs: `key=lambda x: x[0]`. -/
def keyLE (a b : Nat × Str) : Prop := a.1 ≤ b.1

instance : DecidableRel keyLE := fun a b => Nat.decLe a.1 b.1

instance : IsTotal (Nat × Str) keyLE := ⟨fun a b => Nat.le_total a.1 b.1⟩

instance : IsTrans (Nat × Str) keyLE := ⟨fun _ _ _ h h2 => Nat.le_trans h h2⟩

/-- Model of `get_page_json_files` over a directory listing: keep filenames that
end in `.json` (case-insensitively) and whose prefix matches the page
regex, pair them with their number, and sort stably by that number. -/
def get_page_json_files (files : List Str) : List (Nat × Str) :=
  let collected := files.filterMap (fun f =>
    if ".json".toList.isSuffixOf (lowerStr f) then
      (pageNumOfName f).map (fun n => (n, f))
    else none)
  collected.insertionSort keyLE

/-- The page-count comparison of `process_pdf_layout_pair` (LabelMe):
a mismatch only prints a warning. -/
def countMismatch (doc : Doc) (files : List (Nat × LabelMeData)) : Bool :=
  files.length != doc.length

/-- The per-page loop of `process_pdf_layout_pair` (LabelMe): each
mapping `(N, file)` becomes zero-based `N - 1`; the file is skipped
(`none`) exactly when `N - 1 >= pdf_page_count`, and otherwise handed to
`process_labelme_json`. -/
def process_pages (doc : Doc) (files : List (Nat × LabelMeData)) :
    List (Nat × Option (LabelMeData × Nat)) :=
  files.map (fun m =>
    let n0 : Int := (m.1 : Int) - 1
    if (doc.length : Int) ≤ n0 then (m.1, none)
    else (m.1, some (process_labelme_json doc n0 m.2)))

/-! ## Definitions following the spec's wording, for comparison -/

/-- Spec wording: the contiguous runs of decimal digits of a string, in
order of appearance. -/
def digitRunsAux : Str → Str → List Str
  | [], acc => if acc.isEmpty then [] else [acc.reverse]
  | c :: cs, acc =>
    if c.isDigit then digitRunsAux cs (c :: acc)
    else if acc.isEmpty then digitRunsAux cs []
    else acc.reverse :: digitRunsAux cs []

/-- The contiguous digit runs of a string. -/
def digitRuns (s : Str) : List Str := digitRunsAux s []

/-- Spec wording (claim C3): the maximal contiguous run of decimal
digits — a longest such run (the first one on ties). -/
def maximalDigitRun (s : Str) : Str :=
  (digitRuns s).foldl (fun best r => if best.length < r.length then r else best) []

/-- Spec wording (claim C6): a filename matching `page_<N>` with a JSON
extension, case-insensitively — the whole name is `page_`, digits,
`.json`, and nothing else. -/
def claimedPageJsonName (s : Str) : Option Nat :=
  let t := lowerStr s
  if "page_".toList.isPrefixOf t then
    let rest := t.drop 5
    let ds := rest.takeWhile Char.isDigit
    if ds.isEmpty then none
    else if rest.drop ds.length = ".json".toList then some (natOfDigits ds)
    else none
  else none

/-! ## Concrete pages and files used by witnesses and counterexamples -/

/-- A letter-sized page whose text query always finds text, used to
instantiate the Dialect A identity mapping. -/
def c2Page : Page := { width := 612, height := 792, getText := fun _ => .ok " t ".toList }

/-- A 600×800-point page for the Dialect B scaling scenario. -/
def c1Page : Page := { width := 600, height := 800, getText := fun _ => .ok "T".toList }

/-- The page used by the counterexample to claim C5: its text query
always finds the word `hello`. -/
def c5Page : Page := { width := 100, height := 100, getText := fun _ => .ok "hello".toList }

/-- The degenerate file used against claim C4: declared width 0, one
well-formed shape carrying no text-layer field. -/
def c4Data : LabelMeData :=
  { imageWidth := 0, imageHeight := 100,
    shapes := [{ label := [], points := [(0, 0), (5, 5)] }] }

/-- A one-page document whose text query always finds the letter `z`,
used against claim C8. -/
def c8Page : Page := { width := 10, height := 10, getText := fun _ => .ok "z".toList }

/-- A well-formed Dialect B page file with one two-point shape, used
against claim C8. -/
def c8Data : LabelMeData :=
  { imageWidth := 5, imageHeight := 5,
    shapes := [{ label := [], points := [(0, 0), (1, 1)] }] }

/-! ## General lemmas about the embedding -/

theorem pyIndex_nonneg (doc : Doc) (n : Nat) : pyIndex doc (n : Int) = doc[n]? := by
  unfold pyIndex
  have h1 : ¬ ((n : Int) < 0) := by exact_mod_cast Int.not_lt.mpr (Int.natCast_nonneg n)
  simp [h1]

/-- Claim C2: for a Dialect A region with bbox `[x, y, w, h]` on an
in-range page, the extraction queries exactly the rectangle
`(x, y, x+w, y+h)` — no scaling, whatever the page's point-space size. -/
theorem dialectA_identity_rect (doc : Doc) (n : Nat) (page : Page)
    (hp : doc[n]? = some page) (x y w h : ℚ) :
    extract_text_from_bbox doc (n : Int) (x, y, w, h) =
      (page.getText ⟨x, y, x + w, y + h⟩).map strip := by
  have hn : n < doc.length := by
    rcases List.getElem?_eq_some_iff.mp hp with ⟨hl, _⟩
    exact hl
  unfold extract_text_from_bbox
  rw [if_neg (by exact_mod_cast Nat.not_le.mpr hn)]
  rw [pyIndex_nonneg, hp]
  cases hE : page.getText ⟨x, y, x + w, y + h⟩ with
  | ok t => simp [hE, Except.map]
  | error e => simp [hE, Except.map]

theorem dialectA_identity_rect_witness :
    (([c2Page] : Doc)[0]? = some c2Page) ∧
    extract_text_from_bbox [c2Page] (0 : Int) (10, 20, 30, 40) =
      (c2Page.getText ⟨10, 20, 10 + 30, 20 + 40⟩).map strip :=
  ⟨rfl, dialectA_identity_rect [c2Page] 0 c2Page rfl 10 20 30 40⟩

/-- Claim C1: for a Dialect B region (two corner points in pixel
resolution `iw × ih`, both nonzero) on an in-range page, the extraction
queries exactly the rectangle obtained by normalizing the points to
`(minX, minY)`–`(maxX, maxY)` and scaling x by `pageWidth / iw` and y by
`pageHeight / ih`, with no vertical flip; on a 600×800 page with
`iw = 1200, ih = 1600` and points `[[100,100],[300,300]]` that
rectangle is `(50, 50, 150, 150)`. -/
theorem dialectB_scaling_rect (doc : Doc) (n : Nat) (page : Page)
    (hp : doc[n]? = some page) (p1 p2 : ℚ × ℚ) (iw ih : ℚ)
    (hw : iw ≠ 0) (hh : ih ≠ 0) :
    extract_text_from_labelme_bbox doc (n : Int) [p1, p2] iw ih =
      (page.getText ⟨min p1.1 p2.1 * (page.width / iw), min p1.2 p2.2 * (page.height / ih),
        max p1.1 p2.1 * (page.width / iw), max p1.2 p2.2 * (page.height / ih)⟩).map strip ∧
    labelmeRect 600 800 (100, 100) (300, 300) 1200 1600 = ⟨50, 50, 150, 150⟩ := by
  constructor
  · have hn : n < doc.length := by
      rcases List.getElem?_eq_some_iff.mp hp with ⟨hl, _⟩
      exact hl
    unfold extract_text_from_labelme_bbox
    rw [if_neg (by exact_mod_cast Nat.not_le.mpr hn)]
    rw [pyIndex_nonneg, hp]
    cases hE : page.getText (labelmeRect page.width page.height p1 p2 iw ih) with
    | ok t =>
      simp only [List.getElem?_cons_zero, List.getElem?_cons_succ, labelmeRect,
        Except.map] at hE ⊢
      rw [hE]
    | error e =>
      simp only [List.getElem?_cons_zero, List.getElem?_cons_succ, labelmeRect,
        Except.map] at hE ⊢
      rw [hE]
  · unfold labelmeRect
    norm_num

theorem dialectB_scaling_rect_witness :
    (([c1Page] : Doc)[0]? = some c1Page) ∧ (1200 : ℚ) ≠ 0 ∧ (1600 : ℚ) ≠ 0 ∧
    (extract_text_from_labelme_bbox [c1Page] (0 : Int) [(100, 100), (300, 300)] 1200 1600 =
      (c1Page.getText ⟨min (100 : ℚ) 300 * (c1Page.width / 1200),
        min (100 : ℚ) 300 * (c1Page.height / 1600),
        max (100 : ℚ) 300 * (c1Page.width / 1200),
        max (100 : ℚ) 300 * (c1Page.height / 1600)⟩).map strip ∧
      labelmeRect 600 800 (100, 100) (300, 300) 1200 1600 = ⟨50, 50, 150, 150⟩) :=
  ⟨rfl, by norm_num, by norm_num,
    dialectB_scaling_rect [c1Page] 0 c1Page rfl (100, 100) (300, 300) 1200 1600
      (by norm_num) (by norm_num)⟩

/-- Claim C5 (amended): a page index greater than or equal to the page
count makes both extractors return the empty string without touching any
page. -/
theorem high_page_index_empty (doc : Doc) (n : Int) (bbox : ℚ × ℚ × ℚ × ℚ)
    (points : List (ℚ × ℚ)) (iw ih : ℚ) (h : (doc.length : Int) ≤ n) :
    extract_text_from_bbox doc n bbox = .ok [] ∧
    extract_text_from_labelme_bbox doc n points iw ih = .ok [] := by
  constructor
  · unfold extract_text_from_bbox
    rw [if_pos h]
  · unfold extract_text_from_labelme_bbox
    rw [if_pos h]

theorem high_page_index_empty_witness :
    ((([] : Doc).length : Int) ≤ 3 ∧
      extract_text_from_bbox [] 3 (0, 0, 1, 1) = .ok [] ∧
      extract_text_from_labelme_bbox [] 3 [] 1 1 = .ok []) :=
  ⟨by decide, high_page_index_empty [] 3 (0, 0, 1, 1) [] 1 1 (by decide)⟩

/-- Claim C5 counterexample: page index `-1` is outside `[0, pageCount)`
but is not guarded — the extractor wraps to the last page and returns
its text, not the empty string. -/
theorem negative_page_index_not_guarded :
    extract_text_from_bbox [c5Page] (-1) (0, 0, 10, 10) = .ok "hello".toList ∧
    "hello".toList ≠ ([] : Str) ∧ ((-1 : Int) < 0) :=
  ⟨rfl, by decide, by decide⟩

/-- Claim C4 (amended): a Dialect B file with `imageWidth = 0` or
`imageHeight = 0` is returned entirely untouched with count 0 — no
division happens, no scaling happens, but no empty-string result is
attached either. -/
theorem zero_dims_skip_unchanged (doc : Doc) (page_num : Int) (data : LabelMeData)
    (h : data.imageWidth = 0 ∨ data.imageHeight = 0) :
    process_labelme_json doc page_num data = (data, 0) := by
  unfold process_labelme_json
  rw [if_pos h]

theorem zero_dims_skip_unchanged_witness :
    (c4Data.imageWidth = 0 ∨ c4Data.imageHeight = 0) ∧
    process_labelme_json [] 0 c4Data = (c4Data, 0) :=
  ⟨Or.inl (by decide), zero_dims_skip_unchanged [] 0 c4Data (Or.inl (by decide))⟩

/-- Claim C4 counterexample: with `imageWidth = 0` the shape keeps no
`original_pdf_text_layer` field at all (`none`), while the claim demands
an attached empty string (`some ""`). -/
theorem zero_dims_no_result_attached :
    (process_labelme_json [] 0 c4Data).1.shapes.map Shape.original_pdf_text_layer
      = [none] ∧
    (none : Option Str) ≠ some [] :=
  ⟨rfl, by decide⟩

theorem augmentAnn_has_result (doc : Doc) (images : List ImageRec) (a : Ann) :
    ∃ t : Str, (augmentAnn doc images a).original_pdf_text_layer = some t := by
  unfold augmentAnn
  cases extract_text_from_bbox doc (get_page_number_from_image_id images a.image_id) a.bbox with
  | ok t => exact ⟨t, rfl⟩
  | error e => exact ⟨[], rfl⟩

theorem augmentShape_has_result (doc : Doc) (page_num : Int) (iw ih : ℚ) (sh : Shape) :
    ∃ t : Str, (augmentShape doc page_num iw ih sh).original_pdf_text_layer = some t := by
  unfold augmentShape
  by_cases hl : 2 ≤ sh.points.length
  · rw [if_pos hl]
    cases extract_text_from_labelme_bbox doc page_num sh.points iw ih with
    | ok t => exact ⟨t, rfl⟩
    | error e => exact ⟨[], rfl⟩
  · rw [if_neg hl]
    exact ⟨[], rfl⟩

/-- Claim C7: every failure of the text query is absorbed at the
per-region step: the region still gets a result (an empty string on
failure), no exception escapes, and all the other regions of the batch
are still processed (the output lists keep their full length, each
entry depending only on its own input region). -/
theorem per_region_fault_absorbed (doc : Doc) (coco : CocoData) (pn : Int)
    (data : LabelMeData) :
    ((processCoco doc coco).1.annotations.length = coco.annotations.length) ∧
    ((processCoco doc coco).1.annotations
      = coco.annotations.map (augmentAnn doc coco.images)) ∧
    (∀ a ∈ (processCoco doc coco).1.annotations, a.original_pdf_text_layer ≠ none) ∧
    (∀ a : Ann,
      extract_text_from_bbox doc (get_page_number_from_image_id coco.images a.image_id) a.bbox
          = .error () →
      augmentAnn doc coco.images a = { a with original_pdf_text_layer := some [] }) ∧
    (data.imageWidth ≠ 0 → data.imageHeight ≠ 0 →
      ((process_labelme_json doc pn data).1.shapes.length = data.shapes.length ∧
       ∀ sh ∈ (process_labelme_json doc pn data).1.shapes,
         sh.original_pdf_text_layer ≠ none)) ∧
    (∀ sh : Shape, 2 ≤ sh.points.length →
      extract_text_from_labelme_bbox doc pn sh.points data.imageWidth data.imageHeight
          = .error () →
      augmentShape doc pn data.imageWidth data.imageHeight sh
        = { sh with original_pdf_text_layer := some [] }) := by
  refine ⟨by simp [processCoco], rfl, ?_, ?_, ?_, ?_⟩
  · intro a ha
    simp only [processCoco, List.mem_map] at ha
    rcases ha with ⟨b, _, rfl⟩
    rcases augmentAnn_has_result doc coco.images b with ⟨t, ht⟩
    rw [ht]
    exact Option.some_ne_none t
  · intro a hE
    unfold augmentAnn
    rw [hE]
  · intro hw hh
    have h0 : ¬ (data.imageWidth = 0 ∨ data.imageHeight = 0) := by
      rintro (h | h)
      · exact hw h
      · exact hh h
    unfold process_labelme_json
    rw [if_neg h0]
    refine ⟨by simp, ?_⟩
    intro sh hsh
    simp only [List.mem_map] at hsh
    rcases hsh with ⟨b, _, rfl⟩
    rcases augmentShape_has_result doc pn data.imageWidth data.imageHeight b with ⟨t, ht⟩
    rw [ht]
    exact Option.some_ne_none t
  · intro sh hl hE
    unfold augmentShape
    rw [if_pos hl, hE]

theorem augmentAnn_idem (doc : Doc) (images : List ImageRec) (a : Ann) :
    augmentAnn doc images (augmentAnn doc images a) = augmentAnn doc images a := by
  unfold augmentAnn
  cases hE : extract_text_from_bbox doc (get_page_number_from_image_id images a.image_id)
      a.bbox with
  | ok t => simp [hE]
  | error e => simp [hE]

theorem augmentShape_idem (doc : Doc) (pn : Int) (iw ih : ℚ) (sh : Shape) :
    augmentShape doc pn iw ih (augmentShape doc pn iw ih sh) = augmentShape doc pn iw ih sh := by
  unfold augmentShape
  by_cases hl : 2 ≤ sh.points.length
  · cases hE : extract_text_from_labelme_bbox doc pn sh.points iw ih with
    | ok t => simp [hl, hE]
    | error e => simp [hl, hE]
  · simp [hl]

/-- Claim C9: re-running the augmentation on an already-augmented group
(same document, same page, same regions) rewrites
`original_pdf_text_layer` with the same value and changes nothing else:
both pipelines are idempotent on the annotation structure. -/
theorem augment_pipeline_idempotent (doc : Doc) (coco : CocoData) (pn : Int)
    (data : LabelMeData) :
    (processCoco doc (processCoco doc coco).1).1 = (processCoco doc coco).1 ∧
    (process_labelme_json doc pn (process_labelme_json doc pn data).1).1
      = (process_labelme_json doc pn data).1 := by
  constructor
  · simp only [processCoco, List.map_map]
    refine congrArg (fun l => CocoData.mk coco.images l) ?_
    exact List.map_congr_left (fun a _ => augmentAnn_idem doc coco.images a)
  · by_cases h0 : data.imageWidth = 0 ∨ data.imageHeight = 0
    · simp [process_labelme_json, h0]
    · unfold process_labelme_json
      rw [if_neg h0]
      simp only
      rw [if_neg h0]
      simp only [List.map_map]
      refine congrArg (fun l => LabelMeData.mk data.imageWidth data.imageHeight l) ?_
      exact List.map_congr_left
        (fun sh _ => augmentShape_idem doc pn data.imageWidth data.imageHeight sh)

/-- Claim C6 (amended): the directory scan collects exactly the
filenames that end in `.json` (case-insensitively) AND whose lower-cased
name starts with a prefix of the form `page_<digits>.json` (the regex is
an anchored prefix match, so `page_1.jsonx.json` is also collected); the
pairs are sorted by numeric page number ascending; the per-pair loop
maps each number `N` to the zero-based document index `N - 1`, so
`page_2.json` and `page_10.json` resolve to indices 1 and 9, in that
order. -/
theorem page_file_collection_sorted (files : List Str) :
    List.Sorted keyLE (get_page_json_files files) ∧
    (∀ n f, ((n, f) ∈ get_page_json_files files ↔
      f ∈ files ∧ ".json".toList.isSuffixOf (lowerStr f) = true ∧
        pageNumOfName f = some n)) ∧
    get_page_json_files ["page_2.json".toList, "page_10.json".toList]
      = [(2, "page_2.json".toList), (10, "page_10.json".toList)] ∧
    (∀ (doc : Doc) (d : LabelMeData), doc.length = 10 →
      process_pages doc [(2, d), (10, d)]
        = [(2, some (process_labelme_json doc 1 d)),
           (10, some (process_labelme_json doc 9 d))]) := by
  refine ⟨List.sorted_insertionSort keyLE _, ?_, by decide, ?_⟩
  · intro n f
    unfold get_page_json_files
    rw [List.mem_insertionSort, List.mem_filterMap]
    constructor
    · rintro ⟨g, hg, hsome⟩
      by_cases hs : ".json".toList.isSuffixOf (lowerStr g) = true
      · rw [if_pos hs] at hsome
        rcases Option.map_eq_some'.mp hsome with ⟨m, hm, hpair⟩
        cases hpair
        exact ⟨hg, hs, hm⟩
      · rw [if_neg hs] at hsome
        cases hsome
    · rintro ⟨hf, hs, hn⟩
      refine ⟨f, hf, ?_⟩
      rw [if_pos hs, hn]
      rfl
  · intro doc d h
    simp only [process_pages, List.map_cons, List.map_nil, h]
    norm_num

/-- Claim C6 counterexample: `page_1.jsonx.json` does not match
`page_<N>` with a JSON extension, yet the scan collects it (the regex
only matches a prefix of the filename). -/
theorem page_file_prefix_overcollected :
    get_page_json_files ["page_1.jsonx.json".toList]
      = [(1, "page_1.jsonx.json".toList)] ∧
    claimedPageJsonName ("page_1.jsonx.json".toList) = none :=
  ⟨by decide, by decide⟩

/-- Claim C8 (amended): a page-mapping count different from the page
count never aborts: the mismatch is surfaced as a warning, every mapping
is still visited, a mapping whose zero-based index `N - 1` is below the
page count (including the negative index `-1` coming from a `page_0`
file) is processed, and only indices at or above the page count are
skipped. -/
theorem mismatch_nonfatal (doc : Doc) (files : List (Nat × LabelMeData))
    (h : files.length ≠ doc.length) (i n1 : Nat) (d : LabelMeData)
    (hm : files[i]? = some (n1, d)) :
    countMismatch doc files = true ∧
    (process_pages doc files).length = files.length ∧
    (((n1 : Int) - 1 < doc.length) →
      (process_pages doc files)[i]?
        = some (n1, some (process_labelme_json doc ((n1 : Int) - 1) d))) ∧
    (((doc.length : Int) ≤ (n1 : Int) - 1) →
      (process_pages doc files)[i]? = some (n1, none)) := by
  refine ⟨by simpa [countMismatch] using h, by simp [process_pages], ?_, ?_⟩
  · intro hlt
    unfold process_pages
    rw [List.getElem?_map, hm]
    simp [Int.not_le.mpr hlt]
  · intro hge
    unfold process_pages
    rw [List.getElem?_map, hm]
    simp [hge]

theorem mismatch_nonfatal_witness :
    (([(0, c8Data), (1, c8Data), (2, c8Data)] : List (Nat × LabelMeData)).length
        ≠ ([c8Page] : Doc).length) ∧
    (([(0, c8Data), (1, c8Data), (2, c8Data)] : List (Nat × LabelMeData))[1]?
        = some (1, c8Data)) ∧
    (countMismatch [c8Page] [(0, c8Data), (1, c8Data), (2, c8Data)] = true ∧
     (process_pages [c8Page] [(0, c8Data), (1, c8Data), (2, c8Data)]).length
        = ([(0, c8Data), (1, c8Data), (2, c8Data)] : List (Nat × LabelMeData)).length ∧
     (((1 : Nat) : Int) - 1 < ([c8Page] : Doc).length →
       (process_pages [c8Page] [(0, c8Data), (1, c8Data), (2, c8Data)])[1]?
         = some (1, some (process_labelme_json [c8Page] (((1 : Nat) : Int) - 1) c8Data))) ∧
     ((([c8Page] : Doc).length : Int) ≤ ((1 : Nat) : Int) - 1 →
       (process_pages [c8Page] [(0, c8Data), (1, c8Data), (2, c8Data)])[1]?
         = some (1, none))) :=
  ⟨by decide, by decide,
    mismatch_nonfatal [c8Page] [(0, c8Data), (1, c8Data), (2, c8Data)] (by decide)
      1 1 c8Data (by decide)⟩

/-- Claim C8 counterexample: with one PDF page and files `page_0.json`,
`page_1.json`, `page_2.json` (a count mismatch), the `page_0` mapping
has zero-based index `-1`, which is outside `[0, 1)`, yet it is NOT
skipped: the guard only tests `>= page_count`, the document is indexed
at `-1`, wraps to the last page, and its shape even receives that
page's text. -/
theorem page_zero_mapping_processed :
    countMismatch [c8Page] [(0, c8Data), (1, c8Data), (2, c8Data)] = true ∧
    (process_pages [c8Page] [(0, c8Data), (1, c8Data), (2, c8Data)])[0]?
      = some (0, some (process_labelme_json [c8Page] (-1) c8Data)) ∧
    (process_labelme_json [c8Page] (-1) c8Data).1.shapes.map Shape.original_pdf_text_layer
      = [some ('z' :: [])] ∧
    ((0 : Int) - 1 < 0) :=
  ⟨by decide, by decide, by decide, by decide⟩

/-- Claim C10: an image identifier with no matching image record makes
the resolver fall back to `image_id - 1`, with no sentinel and no
exception. -/
theorem unmatched_image_id_fallback (images : List ImageRec) (image_id : Int)
    (h : ∀ im ∈ images, im.id ≠ image_id) :
    get_page_number_from_image_id images image_id = image_id - 1 := by
  induction images with
  | nil => rfl
  | cons im rest ih =>
    simp only [get_page_number_from_image_id]
    rw [if_neg (h im (List.mem_cons_self im rest))]
    exact ih (fun x hx => h x (List.mem_cons_of_mem _ hx))

/-- Claim C3 (amended): for the first image record matching the
identifier, the resolver concatenates ALL decimal digit characters of
the file's base name, in order — not just one contiguous run — and
returns that number minus 1; with no digit at all it falls back to
`image_id - 1`. It never raises. -/
theorem resolver_concatenates_digits (images : List ImageRec) (image_id : Int)
    (im : ImageRec) (hf : images.find? (fun r => r.id == image_id) = some im) :
    get_page_number_from_image_id images image_id =
      (if ((splitextStem (pathBasename im.file_name)).filter Char.isDigit).isEmpty
       then image_id - 1
       else (natOfDigits ((splitextStem (pathBasename im.file_name)).filter Char.isDigit) : Int)
          - 1) := by
  induction images with
  | nil => simp at hf
  | cons a rest ih =>
    by_cases hid : a.id = image_id
    · rw [List.find?_cons_of_pos _ (by simpa using hid)] at hf
      cases hf
      simp only [get_page_number_from_image_id]
      rw [if_pos hid]
    · rw [List.find?_cons_of_neg _ (by simpa using hid)] at hf
      simp only [get_page_number_from_image_id]
      rw [if_neg hid]
      exact ih hf

theorem resolver_concatenates_digits_witness :
    ([(⟨1, "page_3.jpg".toList⟩ : ImageRec)].find? (fun r => r.id == 1)
        = some ⟨1, "page_3.jpg".toList⟩) ∧
    get_page_number_from_image_id [⟨1, "page_3.jpg".toList⟩] 1 =
      (if ((splitextStem (pathBasename ("page_3.jpg".toList))).filter Char.isDigit).isEmpty
       then 1 - 1
       else (natOfDigits ((splitextStem (pathBasename ("page_3.jpg".toList))).filter
          Char.isDigit) : Int) - 1) :=
  ⟨by decide, resolver_concatenates_digits [⟨1, "page_3.jpg".toList⟩] 1
    ⟨1, "page_3.jpg".toList⟩ (by decide)⟩

/-- Claim C3 counterexample: for the base name `p1anno10` the code
concatenates the digits to `110` and returns `109`, while the maximal
contiguous digit run is `10`, whose value minus 1 is `9`. -/
theorem resolver_not_maximal_run :
    get_page_number_from_image_id [⟨1, "p1anno10.jpg".toList⟩] 1 = 109 ∧
    (natOfDigits (maximalDigitRun (splitextStem (pathBasename ("p1anno10.jpg".toList)))) : Int)
        - 1 = 9 ∧
    (109 : Int) ≠ 9 :=
  ⟨by decide, by decide, by decide⟩

theorem unmatched_image_id_fallback_witness :
    (∀ im ∈ [(⟨1, "a.jpg".toList⟩ : ImageRec)], im.id ≠ 5) ∧
    get_page_number_from_image_id [⟨1, "a.jpg".toList⟩] 5 = 5 - 1 :=
  ⟨by decide, unmatched_image_id_fallback [⟨1, "a.jpg".toList⟩] 5 (by decide)⟩
